import Mathlib

/-!
# Word-Treasure front-end: game-session view-model, verified

Shallow embedding of the client-side game-session view-model of the
word-guessing web client (`src/pages/Game/Game.jsx`), the auth context
(`src/contexts/AuthContext.jsx`) and the shared HTTP client's response
interceptor (`src/api/axios.js`), together with theorems about the resume
transform, the request-deduplication guards, guess submission, hint
accumulation, logout and 401 handling.

Numbers carried by the API are modelled as rationals (`ℚ`) where the code
may receive fractional scores, and timestamps compared via
`new Date(...).getTime()` are modelled as integers (epoch milliseconds).
JS `null`/`undefined` field absence is modelled with `Option`.
-/

namespace WordTreasure

/-- JS `Math.round`: round half toward positive infinity, `⌊x + 1/2⌋`. -/
def jsRound (x : ℚ) : ℤ := ⌊x + 1 / 2⌋

/-- Display string used when an attempt has no `createdAt` ("방금 전"). -/
def placeholderTimestamp : String := "방금 전"

/-- JS `String.prototype.trim`: strip leading and trailing whitespace. -/
def jsTrim (s : String) : String :=
  ⟨((s.data.dropWhile Char.isWhitespace).reverse.dropWhile Char.isWhitespace).reverse⟩

/-- One element of `progress.attempts` as delivered by the server on resume. -/
structure ServerAttempt where
  attemptNumber : Option ℤ
  similarityScore : Option ℚ
  similarity : Option ℚ
  userInput : String
  hint : Option String
  createdAt : Option String
deriving DecidableEq

/-- A display-ready attempt in the component's timeline state.

`extraHints` and `timestamp` are `Option` because a freshly submitted
attempt (`normalizedResult` in `handleSubmit`) leaves them `undefined`,
while the resume transform sets them explicitly. -/
structure TimelineAttempt where
  attemptNumber : Option ℤ
  similarityScore : Option ℚ
  userInput : String
  hint : Option String
  createdAt : Option String
  similarity : ℤ
  extraHints : Option (List String)
  timestamp : Option String
deriving DecidableEq

/-- One element of `progress.hints`: a supplementary hint restored on
resume. `requestedAt` is the epoch-millisecond value of
`new Date(hint.requestedAt).getTime()`. -/
structure HintRecord where
  hintContent : String
  requestedAt : ℤ
deriving DecidableEq

/-- Sort key used by the resume transform:
`(x.attemptNumber ?? 0)` (`Game.jsx`, `initializeGame`). -/
def attemptKey (a : ServerAttempt) : ℤ := a.attemptNumber.getD 0

/-- The same key read off a timeline element. -/
def timelineKey (t : TimelineAttempt) : ℤ := t.attemptNumber.getD 0

/-- The element-wise part of the resume transform (`initializeGame`):
spread the server attempt, map `similarityScore ?? similarity ?? 0`
through `Math.round` into `similarity`, start `extraHints` empty, and
set `timestamp` to `createdAt || '방금 전'`. -/
def restoreAttempt (a : ServerAttempt) : TimelineAttempt :=
  { attemptNumber := a.attemptNumber
    similarityScore := a.similarityScore
    userInput := a.userInput
    hint := a.hint
    createdAt := a.createdAt
    similarity := jsRound (a.similarityScore.getD (a.similarity.getD 0))
    extraHints := some []
    timestamp := some (a.createdAt.getD placeholderTimestamp) }

/-- `restoredAttempts` of `initializeGame`: copy the server list, sort it
descending by `attemptNumber ?? 0` (JS `Array.prototype.sort` is stable;
`List.mergeSort` is the matching stable sort), then decorate each element. -/
def restoredAttempts (attempts : List ServerAttempt) : List TimelineAttempt :=
  (attempts.mergeSort (fun a b => decide (attemptKey b ≤ attemptKey a))).map restoreAttempt

/-- `sortedHints` of `initializeGame`: the restored hint records sorted
ascending by request time (stable). -/
def sortedHints (hints : List HintRecord) : List HintRecord :=
  hints.mergeSort (fun a b => decide (a.requestedAt ≤ b.requestedAt))

/-- Step 2 of the resume transform: when both the restored attempt list and
the restored hint list are non-empty, rebuild index 0 with the ordered hint
contents appended to its `extraHints`; in every other case return the
restored list unchanged. -/
def attachRestoredHints : List TimelineAttempt → List HintRecord → List TimelineAttempt
  | latest :: rest, h :: hs =>
      { latest with
        extraHints :=
          some ((latest.extraHints.getD []) ++
            (sortedHints (h :: hs)).map HintRecord.hintContent) } :: rest
  | ra, _ => ra

/-- The whole resume transform: attempts restored and decorated, then the
restored hints attached to the latest attempt. -/
def restoreProgress (attempts : List ServerAttempt) (hints : List HintRecord) :
    List TimelineAttempt :=
  attachRestoredHints (restoredAttempts attempts) hints

/-! ## Hint requests (`handleRequestHint`) -/

/-- The pieces of component state that the hint-request guard reads and
writes: the active session identifier from `gameData` and the
`hintLoading` flag. `gameSessionId = none` models an absent (falsy)
`gameData?.gameSessionId`. -/
structure HintState where
  gameSessionId : Option ℤ
  hintLoading : Bool
deriving DecidableEq

/-- Synchronous prefix of `handleRequestHint`: bail out (no network call)
when there is no active session id or a hint request is already in flight;
otherwise raise `hintLoading` and issue the call. Returns the updated
state and whether a network call was issued. -/
def handleRequestHintStart (s : HintState) : HintState × Bool :=
  match s.gameSessionId with
  | none => (s, false)
  | some _ =>
      if s.hintLoading then (s, false)
      else ({ s with hintLoading := true }, true)

/-- The `finally` block of `handleRequestHint`: `setHintLoading(false)`,
run whether the request resolved (`succeeded = true`) or rejected. -/
def handleRequestHintFinish (succeeded : Bool) (s : HintState) : HintState :=
  let _ := succeeded
  { s with hintLoading := false }

/-- The `setAttempts` updater run when a hint request succeeds: if the
timeline is empty return it unchanged, otherwise rebuild index 0 with the
hint text appended to its `extraHints` (`[...(latest.extraHints || []),
hintText]`) and keep the rest. -/
def applyHintSuccess (hintText : String) : List TimelineAttempt → List TimelineAttempt
  | [] => []
  | latest :: rest =>
      { latest with
        extraHints := some ((latest.extraHints.getD []) ++ [hintText]) } :: rest

/-! ## Live rankings (`fetchRankings`) -/

/-- The in-flight guard of `fetchRankings` (`fetchingRankingsRef`). -/
structure RankingState where
  fetchingRankings : Bool
deriving DecidableEq

/-- Synchronous prefix of `fetchRankings dailyWordId`: bail out when the
word id is absent or a ranking request is already in flight; otherwise
raise the guard and issue the call. Returns the updated guard state and
whether a network call was issued. -/
def fetchRankingsStart (dailyWordId : Option ℤ) (s : RankingState) : RankingState × Bool :=
  match dailyWordId with
  | none => (s, false)
  | some _ =>
      if s.fetchingRankings then (s, false)
      else ({ fetchingRankings := true }, true)

/-- The `finally` block of `fetchRankings`:
`fetchingRankingsRef.current = false`, run on resolve and on reject. -/
def fetchRankingsFinish (succeeded : Bool) (s : RankingState) : RankingState :=
  let _ := succeeded
  { s with fetchingRankings := false }

/-- Events touching the ranking guard during one mounted game page: a poll
tick or post-submission refresh (`tick`, carrying the `dailyWordId` it
closes over), and the completion of an in-flight request (`finish`,
carrying whether it resolved or rejected). -/
inductive RankEvent where
  | tick (dailyWordId : Option ℤ)
  | finish (succeeded : Bool)
deriving DecidableEq

/-- Guard state together with the number of ranking HTTP requests started
and not yet completed. -/
structure RankSys where
  st : RankingState
  inFlight : ℕ
deriving DecidableEq

/-- One step of the ranking subsystem; the `Bool` reports whether the event
issued a network call. A `finish` closes one open request. -/
def rankStep : RankSys → RankEvent → RankSys × Bool
  | s, .tick w =>
      let r := fetchRankingsStart w s.st
      ({ st := r.1, inFlight := s.inFlight + (if r.2 then 1 else 0) }, r.2)
  | s, .finish ok => ({ st := fetchRankingsFinish ok s.st, inFlight := s.inFlight - 1 }, false)

/-- States the ranking subsystem can reach from the mount state (guard
down, nothing in flight). A `finish` event only occurs for a request that
is actually open. -/
inductive RankReachable : RankSys → Prop
  | init : RankReachable ⟨⟨false⟩, 0⟩
  | tick (w : Option ℤ) (s : RankSys) :
      RankReachable s → RankReachable (rankStep s (.tick w)).1
  | finish (ok : Bool) (s : RankSys) :
      RankReachable s → 0 < s.inFlight → RankReachable (rankStep s (.finish ok)).1

/-! ## Guess submission (`handleSubmit`) -/

/-- The session identifiers the submit handler reads from `gameData`. -/
structure GameData where
  gameSessionId : Option ℤ
  dailyWordId : Option ℤ
deriving DecidableEq

/-- Component state read by `handleSubmit`. -/
structure SubmitState where
  gameData : Option GameData
  userInput : String
  attempts : List TimelineAttempt
  loading : Bool
deriving DecidableEq

/-- `response.data.data` of a successful `POST /api/game/attempt`. -/
structure AttemptResult where
  isCorrect : Bool
  similarityScore : Option ℚ
  similarity : Option ℚ
  userInput : String
  hint : Option String
  rank : Option ℤ
  tokensEarned : Option ℤ
deriving DecidableEq

/-- The `state` object passed to `navigate('/result/success', ...)`.
`answer` models `attempts.userInput`, a property access on the attempts
array, which in JS evaluates to `undefined`. -/
structure SuccessNavState where
  answer : Option String
  attemptHistory : List TimelineAttempt
  attempts : ℕ
  rank : Option ℤ
  tokens : Option ℤ
deriving DecidableEq

/-- A scheduled `navigate` call: the `setTimeout` delay in milliseconds,
the target path, and the navigation state. -/
structure ScheduledNav where
  delayMs : ℕ
  path : String
  state : SuccessNavState
deriving DecidableEq

/-- Everything `handleSubmit` leaves behind: whether it issued the
network call, the timeline and input-field state afterwards, the
`loading` flag (cleared in `finally`), and the navigation it scheduled. -/
structure SubmitOutcome where
  networkCall : Bool
  attempts : List TimelineAttempt
  userInput : String
  loading : Bool
  navigation : Option ScheduledNav
deriving DecidableEq

/-- `normalizedResult` of `handleSubmit`: spread the server result and set
`similarity := Math.round(result.similarityScore ?? result.similarity ?? 0)`.
Fields the result does not carry (`attemptNumber`, `createdAt`,
`extraHints`, `timestamp`) stay absent. -/
def normalizedResult (result : AttemptResult) : TimelineAttempt :=
  { attemptNumber := none
    similarityScore := result.similarityScore
    userInput := result.userInput
    hint := result.hint
    createdAt := none
    similarity := jsRound (result.similarityScore.getD (result.similarity.getD 0))
    extraHints := none
    timestamp := none }

/-- `handleSubmit`, run to completion against a given server response.
With an empty (after trim) input or a submission already in flight it
returns before any network call. Otherwise the call is issued; on success
the normalized attempt is prepended to the timeline, the input is cleared,
and — when the guess is correct — a navigation to `/result/success` is
scheduled after 1500 ms. The scheduled state closes over the `attempts`
binding of the current render, i.e. the pre-submission timeline. On a
rejected response the timeline is untouched. `loading` ends `false` via
`finally` in every path that made the call. -/
def handleSubmit (s : SubmitState) (response : Except String AttemptResult) : SubmitOutcome :=
  if jsTrim s.userInput = "" ∨ s.loading then
    { networkCall := false, attempts := s.attempts, userInput := s.userInput
      loading := s.loading, navigation := none }
  else
    match response with
    | .error _ =>
        { networkCall := true, attempts := s.attempts, userInput := s.userInput
          loading := false, navigation := none }
    | .ok result =>
        { networkCall := true
          attempts := normalizedResult result :: s.attempts
          userInput := ""
          loading := false
          navigation :=
            if result.isCorrect then
              some { delayMs := 1500
                     path := "/result/success"
                     state :=
                       { answer := none
                         attemptHistory := s.attempts
                         attempts := s.attempts.length + 1
                         rank := result.rank
                         tokens := result.tokensEarned } }
            else none }

/-! ## Auth context (`AuthContext.jsx`) -/

/-- The authenticated identity held in the auth context. -/
structure UserInfo where
  memberId : ℤ
  nickname : String
  email : String
deriving DecidableEq

/-- `logout` of the auth context: try the server call, swallow any error
(the `catch` only logs), and clear the local identity in `finally` —
so the user is cleared on both outcomes of the server call. -/
def logoutRun (serverResponse : Except String Unit) (_user : Option UserInfo) :
    Option UserInfo :=
  match serverResponse with
  | .ok _ => none
  | .error _ => none

/-! ## HTTP client response interceptor (`api/axios.js`) -/

/-- What the response-error interceptor does with a failed response. -/
structure InterceptorOutcome where
  redirectTo : Option String
  propagated : Bool
deriving DecidableEq

/-- The response-error interceptor: on a 401 status, redirect to `/login`
unless the window is already at `/login` or `/signup` (loop guard); in
every case return `Promise.reject(error)`, i.e. propagate the error to the
caller. `status = none` models an error without a response (network
failure). -/
def responseErrorInterceptor (status : Option ℕ) (currentPath : String) :
    InterceptorOutcome :=
  { redirectTo :=
      if status = some 401 then
        if currentPath ≠ "/login" ∧ currentPath ≠ "/signup" then some "/login"
        else none
      else none
    propagated := true }

/-! ## Theorems -/

/-- The decorated, sorted attempt list holds exactly the decorations of the
server attempts. -/
theorem restoredAttempts_perm (l : List ServerAttempt) :
    (restoredAttempts l).Perm (l.map restoreAttempt) := by
  unfold restoredAttempts
  exact (List.mergeSort_perm l _).map restoreAttempt

/-- The comparator used by the resume transform is transitive. -/
theorem attemptKey_trans (a b c : ServerAttempt)
    (hab : decide (attemptKey b ≤ attemptKey a) = true)
    (hbc : decide (attemptKey c ≤ attemptKey b) = true) :
    decide (attemptKey c ≤ attemptKey a) = true := by
  simp only [decide_eq_true_eq] at *
  omega

/-- The comparator used by the resume transform is total. -/
theorem attemptKey_total (a b : ServerAttempt) :
    (decide (attemptKey b ≤ attemptKey a) || decide (attemptKey a ≤ attemptKey b)) = true := by
  simp only [Bool.or_eq_true, decide_eq_true_eq]
  omega

/-- The restored timeline is sorted descending by `attemptNumber ?? 0`. -/
theorem restoredAttempts_sorted (l : List ServerAttempt) :
    List.Pairwise (fun x y => timelineKey y ≤ timelineKey x) (restoredAttempts l) := by
  unfold restoredAttempts
  rw [List.pairwise_map]
  have h := List.sorted_mergeSort attemptKey_trans attemptKey_total l
  exact h.imp (fun hab => of_decide_eq_true hab)

/-- Concrete attempt list used to instantiate the resume-transform
theorems: attempt numbers arrive unsorted as 1, 3, 2. -/
def c1ServerList : List ServerAttempt :=
  [⟨some 1, some 10, none, "첫 단어", none, none⟩,
   ⟨some 3, none, some (25 / 2 : ℚ), "셋째 단어", some "힌트", some "2025-06-01"⟩,
   ⟨some 2, some (341 / 10 : ℚ), some 7, "둘째 단어", none, none⟩]

/-- C1. The resume transform reconstructs the timeline as the server's
attempt list sorted descending by `attemptNumber` (absent treated as 0),
so index 0 carries the greatest attempt number, and every element has
`similarity = round(similarityScore ?? similarity ?? 0)`, `extraHints`
empty, and `timestamp = createdAt` or the placeholder when `createdAt` is
absent. -/
theorem resume_transform_reconstructs_sorted_timeline (l : List ServerAttempt) :
    (restoredAttempts l).Perm (l.map restoreAttempt) ∧
    List.Pairwise (fun x y => timelineKey y ≤ timelineKey x) (restoredAttempts l) ∧
    (∀ h rest, restoredAttempts l = h :: rest →
      ∀ t ∈ restoredAttempts l, timelineKey t ≤ timelineKey h) ∧
    (∀ t ∈ restoredAttempts l, ∃ a ∈ l,
      t.similarity = jsRound (a.similarityScore.getD (a.similarity.getD 0)) ∧
      t.extraHints = some [] ∧
      t.timestamp = some (a.createdAt.getD placeholderTimestamp) ∧
      t.userInput = a.userInput ∧
      t.attemptNumber = a.attemptNumber ∧
      t.similarityScore = a.similarityScore ∧
      t.hint = a.hint ∧
      t.createdAt = a.createdAt) := by
  refine ⟨restoredAttempts_perm l, restoredAttempts_sorted l, ?_, ?_⟩
  · intro h rest heq t ht
    have hp := restoredAttempts_sorted l
    rw [heq] at hp ht
    rcases List.mem_cons.mp ht with rfl | ht
    · exact le_refl _
    · exact (List.pairwise_cons.mp hp).1 t ht
  · intro t ht
    unfold restoredAttempts at ht
    rcases List.mem_map.mp ht with ⟨a, ha, rfl⟩
    rw [List.mem_mergeSort] at ha
    exact ⟨a, ha, rfl, rfl, rfl, rfl, rfl, rfl, rfl, rfl⟩

/-- Witness for C1 at a concrete unsorted attempt list: the reconstructed
timeline's attempt numbers come out as 3, 2, 1, and the theorem's
statement holds at that list. -/
theorem resume_transform_reconstructs_sorted_timeline_witness :
    (restoredAttempts c1ServerList).map TimelineAttempt.attemptNumber =
      [some 3, some 2, some 1] ∧
    ((restoredAttempts c1ServerList).Perm (c1ServerList.map restoreAttempt) ∧
    List.Pairwise (fun x y => timelineKey y ≤ timelineKey x) (restoredAttempts c1ServerList) ∧
    (∀ h rest, restoredAttempts c1ServerList = h :: rest →
      ∀ t ∈ restoredAttempts c1ServerList, timelineKey t ≤ timelineKey h) ∧
    (∀ t ∈ restoredAttempts c1ServerList, ∃ a ∈ c1ServerList,
      t.similarity = jsRound (a.similarityScore.getD (a.similarity.getD 0)) ∧
      t.extraHints = some [] ∧
      t.timestamp = some (a.createdAt.getD placeholderTimestamp) ∧
      t.userInput = a.userInput ∧
      t.attemptNumber = a.attemptNumber ∧
      t.similarityScore = a.similarityScore ∧
      t.hint = a.hint ∧
      t.createdAt = a.createdAt)) :=
  ⟨by simp [c1ServerList, restoredAttempts, restoreAttempt, attemptKey,
      List.mergeSort, List.splitInTwo, List.merge],
   resume_transform_reconstructs_sorted_timeline c1ServerList⟩

/-- Every element the resume transform produces starts with an empty
`extraHints` sequence. -/
theorem restoredAttempts_extraHints (l : List ServerAttempt) :
    ∀ t ∈ restoredAttempts l, t.extraHints = some [] := by
  intro t ht
  unfold restoredAttempts at ht
  rcases List.mem_map.mp ht with ⟨a, _, rfl⟩
  rfl

/-- The resume transform preserves the number of attempts. -/
theorem restoredAttempts_length (l : List ServerAttempt) :
    (restoredAttempts l).length = l.length := by
  simp [restoredAttempts]

/-- The hint comparator of the resume transform is transitive. -/
theorem hintTime_trans (a b c : HintRecord)
    (hab : decide (a.requestedAt ≤ b.requestedAt) = true)
    (hbc : decide (b.requestedAt ≤ c.requestedAt) = true) :
    decide (a.requestedAt ≤ c.requestedAt) = true := by
  simp only [decide_eq_true_eq] at *
  omega

/-- The hint comparator of the resume transform is total. -/
theorem hintTime_total (a b : HintRecord) :
    (decide (a.requestedAt ≤ b.requestedAt) || decide (b.requestedAt ≤ a.requestedAt)) = true := by
  simp only [Bool.or_eq_true, decide_eq_true_eq]
  omega

/-- The restored hint records are sorted ascending by request time. -/
theorem sortedHints_sorted (hints : List HintRecord) :
    List.Pairwise (fun a b => a.requestedAt ≤ b.requestedAt) (sortedHints hints) := by
  unfold sortedHints
  have h := List.sorted_mergeSort hintTime_trans hintTime_total hints
  exact h.imp (fun hab => of_decide_eq_true hab)

/-- Sorting the restored hint records only reorders them. -/
theorem sortedHints_perm (hints : List HintRecord) :
    (sortedHints hints).Perm hints :=
  List.mergeSort_perm hints _

/-- C2. On resume, when both the attempt list and the hint list are
non-empty, the hint records are sorted ascending by `requestedAt` and their
contents are appended, in that order, to the `extraHints` of the latest
(index 0) attempt only; every other attempt keeps an empty `extraHints`,
and when either list is empty no extra hints are attached anywhere. -/
theorem resume_hints_attach_to_latest_attempt_only
    (attempts : List ServerAttempt) (hints : List HintRecord) :
    ((attempts = [] ∨ hints = []) →
      restoreProgress attempts hints = restoredAttempts attempts ∧
      ∀ t ∈ restoreProgress attempts hints, t.extraHints = some []) ∧
    (attempts ≠ [] → hints ≠ [] →
      ∃ latest rest, restoredAttempts attempts = latest :: rest ∧
        ∃ latest', restoreProgress attempts hints = latest' :: rest ∧
          latest'.extraHints = some ((sortedHints hints).map HintRecord.hintContent) ∧
          List.Pairwise (fun a b => a.requestedAt ≤ b.requestedAt) (sortedHints hints) ∧
          (sortedHints hints).Perm hints ∧
          latest'.userInput = latest.userInput ∧
          latest'.similarity = latest.similarity ∧
          latest'.hint = latest.hint ∧
          latest'.attemptNumber = latest.attemptNumber ∧
          latest'.similarityScore = latest.similarityScore ∧
          latest'.createdAt = latest.createdAt ∧
          latest'.timestamp = latest.timestamp ∧
          (∀ t ∈ rest, t.extraHints = some [])) := by
  constructor
  · rintro (rfl | rfl)
    · have h1 : restoredAttempts ([] : List ServerAttempt) = [] := by
        have := restoredAttempts_length ([] : List ServerAttempt)
        simpa using List.length_eq_zero.mp (by simpa using this)
      refine ⟨?_, ?_⟩
      · unfold restoreProgress
        rw [h1]
        rfl
      · intro t ht
        unfold restoreProgress at ht
        rw [h1] at ht
        simp [attachRestoredHints] at ht
    · refine ⟨?_, ?_⟩
      · unfold restoreProgress
        cases restoredAttempts attempts <;> rfl
      · intro t ht
        have he : restoreProgress attempts [] = restoredAttempts attempts := by
          unfold restoreProgress
          cases restoredAttempts attempts <;> rfl
        rw [he] at ht
        exact restoredAttempts_extraHints attempts t ht
  · intro ha hh
    have hlen : restoredAttempts attempts ≠ [] := by
      intro hnil
      have := restoredAttempts_length attempts
      rw [hnil] at this
      exact ha (List.length_eq_zero.mp this.symm)
    rcases hra : restoredAttempts attempts with _ | ⟨latest, rest⟩
    · exact absurd hra hlen
    rcases hhints : hints with _ | ⟨h0, hs⟩
    · exact absurd hhints hh
    refine ⟨latest, rest, rfl, ?_⟩
    have hlatest : latest.extraHints = some [] :=
      restoredAttempts_extraHints attempts latest (by rw [hra]; exact List.mem_cons_self _ _)
    refine ⟨{ latest with
        extraHints := some ((latest.extraHints.getD []) ++
          (sortedHints (h0 :: hs)).map HintRecord.hintContent) }, ?_, ?_,
        ?_, ?_, rfl, rfl, rfl, rfl, rfl, rfl, rfl, ?_⟩
    · unfold restoreProgress
      rw [hra]
      rfl
    · rw [hlatest]
      rfl
    · rw [← hhints]
      exact sortedHints_sorted hints
    · rw [← hhints]
      exact sortedHints_perm hints
    · intro t ht
      refine restoredAttempts_extraHints attempts t ?_
      rw [hra]
      exact List.mem_cons_of_mem _ ht

/-- Concrete resume progress used to instantiate C2: two attempts and two
hints whose `requestedAt` values arrive out of order. -/
def c2ServerList : List ServerAttempt :=
  [⟨some 1, some 40, none, "하나", none, none⟩,
   ⟨some 2, some 60, none, "둘", some "기본 힌트", some "2025-06-02"⟩]

/-- The out-of-order restored hint records for the C2 witness. -/
def c2Hints : List HintRecord :=
  [⟨"늦은 힌트", 200⟩, ⟨"이른 힌트", 100⟩]

/-- Witness for C2: with hints arriving out of chronological order the
latest attempt ends up with the chronologically sorted hint contents, the
older attempt keeps none, and the C2 statement holds at this input. -/
theorem resume_hints_attach_to_latest_attempt_only_witness :
    (restoreProgress c2ServerList c2Hints).map TimelineAttempt.extraHints =
      [some ["이른 힌트", "늦은 힌트"], some []] ∧
    (∃ latest rest, restoredAttempts c2ServerList = latest :: rest ∧
        ∃ latest', restoreProgress c2ServerList c2Hints = latest' :: rest ∧
          latest'.extraHints = some ((sortedHints c2Hints).map HintRecord.hintContent) ∧
          List.Pairwise (fun a b => a.requestedAt ≤ b.requestedAt) (sortedHints c2Hints) ∧
          (sortedHints c2Hints).Perm c2Hints ∧
          latest'.userInput = latest.userInput ∧
          latest'.similarity = latest.similarity ∧
          latest'.hint = latest.hint ∧
          latest'.attemptNumber = latest.attemptNumber ∧
          latest'.similarityScore = latest.similarityScore ∧
          latest'.createdAt = latest.createdAt ∧
          latest'.timestamp = latest.timestamp ∧
          (∀ t ∈ rest, t.extraHints = some [])) :=
  ⟨by simp [c2ServerList, c2Hints, restoreProgress, restoredAttempts, restoreAttempt,
      attemptKey, attachRestoredHints, sortedHints,
      List.mergeSort, List.splitInTwo, List.merge],
   (resume_hints_attach_to_latest_attempt_only c2ServerList c2Hints).2
     (by simp [c2ServerList]) (by simp [c2Hints])⟩

/-- Along any run of the ranking subsystem, the guard flag counts the open
requests exactly: one request is open when `fetchingRankings` is up, none
when it is down. -/
theorem rankReachable_invariant {s : RankSys} (h : RankReachable s) :
    s.inFlight = (if s.st.fetchingRankings then 1 else 0) := by
  induction h with
  | init => rfl
  | tick w t h ih =>
      cases w with
      | none => simpa [rankStep, fetchRankingsStart] using ih
      | some x =>
          cases hb : t.st.fetchingRankings with
          | true => simpa [rankStep, fetchRankingsStart, hb] using ih
          | false =>
              rw [hb] at ih
              simp [rankStep, fetchRankingsStart, hb, ih]
  | finish ok t h hpos ih =>
      simp only [rankStep, fetchRankingsFinish]
      split at ih <;> simp_all

/-- C3. In every run of the game page's ranking subsystem, at most one
live-ranking request is in flight, and a tick (poll or post-submission
refresh) that fires while a request is open is skipped entirely: it issues
no network call and leaves the state untouched. -/
theorem ranking_requests_never_concurrent {s : RankSys} (h : RankReachable s) :
    s.inFlight ≤ 1 ∧
    (0 < s.inFlight → ∀ w : Option ℤ, rankStep s (RankEvent.tick w) = (s, false)) := by
  have hinv := rankReachable_invariant h
  constructor
  · split at hinv <;> omega
  · intro hpos w
    have hf : s.st.fetchingRankings = true := by
      cases hb : s.st.fetchingRankings with
      | true => rfl
      | false =>
          rw [hb] at hinv
          simp at hinv
          omega
    cases w with
    | none => simp [rankStep, fetchRankingsStart]
    | some x => simp [rankStep, fetchRankingsStart, hf]

/-- Witness for C3: the state reached by a single poll tick has one open
request, and the theorem applied there shows a burst tick is skipped. -/
theorem ranking_requests_never_concurrent_witness :
    0 < ((rankStep ⟨⟨false⟩, 0⟩ (RankEvent.tick (some 7))).1).inFlight ∧
    (((rankStep ⟨⟨false⟩, 0⟩ (RankEvent.tick (some 7))).1).inFlight ≤ 1 ∧
     (0 < ((rankStep ⟨⟨false⟩, 0⟩ (RankEvent.tick (some 7))).1).inFlight →
      ∀ w : Option ℤ,
        rankStep ((rankStep ⟨⟨false⟩, 0⟩ (RankEvent.tick (some 7))).1) (RankEvent.tick w) =
          ((rankStep ⟨⟨false⟩, 0⟩ (RankEvent.tick (some 7))).1, false))) :=
  ⟨by decide,
   ranking_requests_never_concurrent
     (RankReachable.tick (some 7) ⟨⟨false⟩, 0⟩ RankReachable.init)⟩

/-- Concrete pre-submission state for the submission theorems: empty
timeline, a non-blank guess, no submission in flight. -/
def c4State : SubmitState :=
  { gameData := some ⟨some 11, some 5⟩
    userInput := "보물"
    attempts := []
    loading := false }

/-- Concrete correct-guess result for the submission theorems. -/
def c4Result : AttemptResult :=
  { isCorrect := true
    similarityScore := some 100
    similarity := none
    userInput := "보물"
    hint := none
    rank := some 1
    tokensEarned := some 10 }

/-- C4 counterexample. Submitting a correct first guess appends the new
attempt to the timeline, yet the scheduled navigation state carries
`attemptHistory = []` — the pre-submission `attempts` binding — so the
carried timeline does not include the newly appended attempt, refuting the
claim that the navigation state carries the full timeline including it.
(The carried count, `0 + 1`, is the pre-submission length plus one.) -/
theorem success_navigation_omits_new_attempt :
    (handleSubmit c4State (Except.ok c4Result)).attempts = [normalizedResult c4Result] ∧
    (handleSubmit c4State (Except.ok c4Result)).navigation =
      some { delayMs := 1500
             path := "/result/success"
             state := { answer := none
                        attemptHistory := []
                        attempts := 1
                        rank := some 1
                        tokens := some 10 } } ∧
    normalizedResult c4Result ∉ ([] : List TimelineAttempt) :=
  ⟨rfl, rfl, by simp⟩

/-- C4 (amended). For every successful guess submission whose result is
correct, a navigation to the success view is scheduled after a fixed
1500 ms delay, carrying an attempt count equal to the pre-submission
timeline length plus one together with the *pre-submission* attempt
timeline (the newly appended attempt is in the component's timeline but
not in the carried history), plus the rank and reward from the result. -/
theorem success_navigation_carries_presubmission_timeline
    (s : SubmitState) (result : AttemptResult)
    (hne : jsTrim s.userInput ≠ "") (hld : s.loading = false)
    (hc : result.isCorrect = true) :
    (handleSubmit s (Except.ok result)).attempts = normalizedResult result :: s.attempts ∧
    (handleSubmit s (Except.ok result)).navigation =
      some { delayMs := 1500
             path := "/result/success"
             state := { answer := none
                        attemptHistory := s.attempts
                        attempts := s.attempts.length + 1
                        rank := result.rank
                        tokens := result.tokensEarned } } := by
  have hcond : ¬ (jsTrim s.userInput = "" ∨ s.loading = true) := by
    simp [hne, hld]
  unfold handleSubmit
  rw [if_neg hcond]
  simp [hc]

/-- Witness for the amended C4 at the concrete correct submission. -/
theorem success_navigation_carries_presubmission_timeline_witness :
    (handleSubmit c4State (Except.ok c4Result)).attempts =
      normalizedResult c4Result :: c4State.attempts ∧
    (handleSubmit c4State (Except.ok c4Result)).navigation =
      some { delayMs := 1500
             path := "/result/success"
             state := { answer := none
                        attemptHistory := c4State.attempts
                        attempts := c4State.attempts.length + 1
                        rank := c4Result.rank
                        tokens := c4Result.tokensEarned } } :=
  success_navigation_carries_presubmission_timeline c4State c4Result
    (by decide) rfl rfl

/-- C5. A submission whose input trims to empty, or fired while a prior
submission is in flight, issues no network call, leaves the timeline
unchanged, and schedules no navigation. -/
theorem blank_or_inflight_submission_is_noop
    (s : SubmitState) (response : Except String AttemptResult)
    (hcond : jsTrim s.userInput = "" ∨ s.loading = true) :
    (handleSubmit s response).networkCall = false ∧
    (handleSubmit s response).attempts = s.attempts ∧
    (handleSubmit s response).navigation = none := by
  unfold handleSubmit
  rw [if_pos hcond]
  exact ⟨rfl, rfl, rfl⟩

/-- Witness for C5 at a whitespace-only guess. -/
theorem blank_or_inflight_submission_is_noop_witness :
    (handleSubmit ⟨none, "   ", [], false⟩ (Except.error "err")).networkCall = false ∧
    (handleSubmit ⟨none, "   ", [], false⟩ (Except.error "err")).attempts = [] ∧
    (handleSubmit ⟨none, "   ", [], false⟩ (Except.error "err")).navigation = none :=
  blank_or_inflight_submission_is_noop ⟨none, "   ", [], false⟩ (Except.error "err")
    (Or.inl (by decide))

/-- C6. From an idle state with an active session, firing a second hint
request before the first resolves issues exactly one network call: the
first raises the guard and calls, the second is a silent no-op that leaves
the state untouched; and with no active session id no call is issued. -/
theorem second_hint_request_is_silent_noop (s : HintState) (sid : ℤ)
    (hsid : s.gameSessionId = some sid) (hidle : s.hintLoading = false) :
    (handleRequestHintStart s).2 = true ∧
    (handleRequestHintStart (handleRequestHintStart s).1).2 = false ∧
    (handleRequestHintStart (handleRequestHintStart s).1).1 = (handleRequestHintStart s).1 ∧
    (∀ s' : HintState, s'.gameSessionId = none → handleRequestHintStart s' = (s', false)) := by
  have h1 : handleRequestHintStart s = ({ s with hintLoading := true }, true) := by
    simp [handleRequestHintStart, hsid, hidle]
  refine ⟨by rw [h1], ?_, ?_, ?_⟩
  · rw [h1]
    simp [handleRequestHintStart, hsid]
  · rw [h1]
    simp [handleRequestHintStart, hsid]
  · intro s' h
    simp [handleRequestHintStart, h]

/-- Witness for C6 at a concrete idle session state. -/
theorem second_hint_request_is_silent_noop_witness :
    (handleRequestHintStart ⟨some 3, false⟩).2 = true ∧
    (handleRequestHintStart (handleRequestHintStart ⟨some 3, false⟩).1).2 = false ∧
    (handleRequestHintStart (handleRequestHintStart ⟨some 3, false⟩).1).1 =
      (handleRequestHintStart ⟨some 3, false⟩).1 ∧
    (∀ s' : HintState, s'.gameSessionId = none → handleRequestHintStart s' = (s', false)) :=
  second_hint_request_is_silent_noop ⟨some 3, false⟩ 3 rfl rfl

/-- C7. A successful hint response is appended to the `extraHints` of the
latest (index 0) attempt only: the rest of the timeline is untouched and
every other field of the latest attempt is preserved; on an empty timeline
the result is discarded and the timeline stays empty. -/
theorem hint_success_appends_to_latest_only (h : String) (l : List TimelineAttempt) :
    (l = [] → applyHintSuccess h l = l) ∧
    (∀ a rest, l = a :: rest →
      ∃ a', applyHintSuccess h l = a' :: rest ∧
        a'.extraHints = some (a.extraHints.getD [] ++ [h]) ∧
        a'.userInput = a.userInput ∧
        a'.similarity = a.similarity ∧
        a'.hint = a.hint ∧
        a'.attemptNumber = a.attemptNumber ∧
        a'.similarityScore = a.similarityScore ∧
        a'.createdAt = a.createdAt ∧
        a'.timestamp = a.timestamp) := by
  constructor
  · rintro rfl
    rfl
  · rintro a rest rfl
    exact ⟨_, rfl, rfl, rfl, rfl, rfl, rfl, rfl, rfl, rfl⟩

/-- Witness for C7: appending a hint to a one-attempt timeline, and the
discard on the empty timeline, evaluated concretely. -/
theorem hint_success_appends_to_latest_only_witness :
    applyHintSuccess "추가" [] = [] ∧
    ((([] : List TimelineAttempt) = [] → applyHintSuccess "추가" [] = []) ∧
     (∀ a rest, ([] : List TimelineAttempt) = a :: rest →
      ∃ a', applyHintSuccess "추가" ([] : List TimelineAttempt) = a' :: rest ∧
        a'.extraHints = some (a.extraHints.getD [] ++ ["추가"]) ∧
        a'.userInput = a.userInput ∧
        a'.similarity = a.similarity ∧
        a'.hint = a.hint ∧
        a'.attemptNumber = a.attemptNumber ∧
        a'.similarityScore = a.similarityScore ∧
        a'.createdAt = a.createdAt ∧
        a'.timestamp = a.timestamp)) :=
  ⟨rfl, hint_success_appends_to_latest_only "추가" []⟩

/-- C8. Logging out clears the locally cached identity whether the
server-side logout call resolves or rejects. -/
theorem logout_clears_identity (r : Except String Unit) (u : Option UserInfo) :
    logoutRun r u = none := by
  cases r <;> rfl

/-- C9. A 401 response redirects to `/login` exactly when the window is
not already on `/login` or `/signup`; on those pages no redirect happens;
and the interceptor always propagates the error to the caller. -/
theorem unauthorized_redirect_policy (status : Option ℕ) (path : String)
    (h401 : status = some 401) :
    ((responseErrorInterceptor status path).redirectTo = some "/login" ↔
      (path ≠ "/login" ∧ path ≠ "/signup")) ∧
    ((path = "/login" ∨ path = "/signup") →
      (responseErrorInterceptor status path).redirectTo = none) ∧
    (∀ st : Option ℕ, ∀ p : String, (responseErrorInterceptor st p).propagated = true) := by
  subst h401
  refine ⟨?_, ?_, fun _ _ => rfl⟩
  · by_cases hp : path ≠ "/login" ∧ path ≠ "/signup"
    · simp [responseErrorInterceptor, hp]
    · simp only [responseErrorInterceptor, if_pos rfl, if_neg hp]
      simpa using hp
  · intro hp
    rcases hp with rfl | rfl <;> simp [responseErrorInterceptor]

/-- Witness for C9 on the game page: the 401 redirects to `/login`, and
the theorem's statement holds there. -/
theorem unauthorized_redirect_policy_witness :
    (responseErrorInterceptor (some 401) "/game").redirectTo = some "/login" ∧
    (((responseErrorInterceptor (some 401) "/game").redirectTo = some "/login" ↔
      (("/game" : String) ≠ "/login" ∧ ("/game" : String) ≠ "/signup")) ∧
     ((("/game" : String) = "/login" ∨ ("/game" : String) = "/signup") →
      (responseErrorInterceptor (some 401) "/game").redirectTo = none) ∧
     (∀ st : Option ℕ, ∀ p : String, (responseErrorInterceptor st p).propagated = true)) :=
  ⟨by decide, unauthorized_redirect_policy (some 401) "/game" rfl⟩

/-- C10. Completing a hint request or a ranking fetch — on success or on
failure — lowers the corresponding in-flight guard, and a subsequent
request from the completed state issues its network call again (given an
active session id, resp. a word id): no earlier failure blocks later
requests. -/
theorem guards_reset_after_completion (ok : Bool) (hs : HintState) (rs : RankingState) :
    (handleRequestHintFinish ok hs).hintLoading = false ∧
    (fetchRankingsFinish ok rs).fetchingRankings = false ∧
    (∀ sid : ℤ, hs.gameSessionId = some sid →
      (handleRequestHintStart (handleRequestHintFinish ok hs)).2 = true) ∧
    (∀ w : ℤ, (fetchRankingsStart (some w) (fetchRankingsFinish ok rs)).2 = true) := by
  refine ⟨rfl, rfl, ?_, fun w => rfl⟩
  intro sid hsid
  simp [handleRequestHintStart, handleRequestHintFinish, hsid]

/-- Witness for C10: after a failed hint request and a failed ranking
fetch, both guards are down and the next request of each kind calls out. -/
theorem guards_reset_after_completion_witness :
    (handleRequestHintFinish false ⟨some 1, true⟩).hintLoading = false ∧
    (fetchRankingsFinish false ⟨true⟩).fetchingRankings = false ∧
    (handleRequestHintStart (handleRequestHintFinish false ⟨some 1, true⟩)).2 = true ∧
    (fetchRankingsStart (some 2) (fetchRankingsFinish false ⟨true⟩)).2 = true :=
  ⟨(guards_reset_after_completion false ⟨some 1, true⟩ ⟨true⟩).1,
   (guards_reset_after_completion false ⟨some 1, true⟩ ⟨true⟩).2.1,
   (guards_reset_after_completion false ⟨some 1, true⟩ ⟨true⟩).2.2.1 1 rfl,
   (guards_reset_after_completion false ⟨some 1, true⟩ ⟨true⟩).2.2.2 2⟩

end WordTreasure
